import Mathlib

/-!
Shallow embedding of the synchronization core of the day-of-cursor
timeline viewer: the variable-rate playback scheduler
(src/components/TimelineControls.jsx, component TimelineViewerVideo),
the frame-seek synchronizer and the overlay projector
(src/components/ScreenshotDisplayVideo.jsx).

Floating-point quantities (timestamps, pixel coordinates, media times,
speed multipliers) are modelled as rationals.  Array indices are
naturals; the JavaScript expression `timelineData.length - 1` is
modelled by truncated natural subtraction, which agrees with the
source for every non-empty sample sequence (the component renders a
"No data available" stub and exposes no controls when the sequence is
empty, so all theorems below assume at least one sample).
-/

namespace DayOfCursor

/-- One cursor sample, as parsed in AppVideo.jsx from a CSV row
`frame_number,timestamp,datetime,video_timestamp,x,y`. -/
structure Sample where
  frame_number : Nat
  timestamp : ℚ
  datetime : String
  video_timestamp : ℚ
  x : ℚ
  y : ℚ
  deriving DecidableEq, Repr

/-- A pending scheduled advancement created by `setTimeout` in
`advanceFrame`: the callback closes over `nextIndex`, and the timeout
delay is `adjustedInterval` milliseconds. -/
structure Timer where
  nextIndex : Nat
  delayMs : ℚ
  deriving DecidableEq, Repr

/-- The mutable state of TimelineViewerVideo that the playback
scheduler reads and writes: the `currentIndex` / `isPlaying` /
`playbackSpeed` React state plus the `playIntervalRef` timeout handle.
`playingIndexRef` is kept equal to `currentIndex` by a dedicated
effect and by the timeout callback itself, so it is not modelled as a
separate field. -/
structure SchedState where
  currentIndex : Nat
  isPlaying : Bool
  playbackSpeed : ℚ
  timer : Option Timer
  deriving DecidableEq, Repr

/-- Initial state on mount: `useState(0)`, `useState(false)`,
`useState(1)`, no pending timeout. -/
def initState : SchedState :=
  { currentIndex := 0, isPlaying := false, playbackSpeed := 1, timer := none }

/-- Timestamp of the sample at index `i` (0 when out of range; the
scheduler only reads indices it has checked to be in range). -/
def tsAt (data : List Sample) (i : Nat) : ℚ :=
  ((data.get? i).map Sample.timestamp).getD 0

/-- One synchronous call of `advanceFrame` (TimelineControls.jsx lines
185-207).  It reads the current index; if it is at or past the last
index it sets `isPlaying` to false and returns, otherwise it computes
`timeDiff = (next.timestamp - current.timestamp) * 1000` milliseconds,
divides by `playbackSpeed`, and schedules the advancement to
`index + 1` after that many milliseconds.  The recursive call in the
source happens only inside the timeout callback, so a single
synchronous call schedules at most one timeout. -/
def advanceFrame (data : List Sample) (s : SchedState) : SchedState :=
  let index := s.currentIndex
  if data.length - 1 ≤ index then
    { s with isPlaying := false }
  else
    let nextIndex := index + 1
    let timeDiff := (tsAt data nextIndex - tsAt data index) * 1000
    let adjustedInterval := timeDiff / s.playbackSpeed
    { s with timer := some { nextIndex := nextIndex, delayMs := adjustedInterval } }

/-- One run of the playback effect body (TimelineControls.jsx lines
183-225), preceded by the cleanup of the previous run: the cleanup
clears any pending timeout; the body then starts `advanceFrame` when
`isPlaying` is true and clears the timeout handle otherwise. -/
def runPlaybackEffect (data : List Sample) (s : SchedState) : SchedState :=
  let cleared : SchedState := { s with timer := none }
  if cleared.isPlaying then advanceFrame data cleared else cleared

/-- React re-runs the playback effect after an event exactly when one
of its dependencies `[isPlaying, playbackSpeed, timelineData]` changed
(the sample list is fixed during a session).  `old` is the state the
previous effect run saw, `new` the state after the event handler. -/
def reRunEffect (data : List Sample) (old new : SchedState) : SchedState :=
  if old.isPlaying = new.isPlaying ∧ old.playbackSpeed = new.playbackSpeed then
    new
  else
    runPlaybackEffect data new

/-- `handlePlayPause` (TimelineControls.jsx lines 251-259): at or past
the terminal index the play command restarts from index 0 and starts
playing; otherwise it toggles `isPlaying`. -/
def handlePlayPause (len : Nat) (s : SchedState) : SchedState :=
  if len - 1 ≤ s.currentIndex then
    { s with currentIndex := 0, isPlaying := true }
  else
    { s with isPlaying := !s.isPlaying }

/-- The user and timer events that mutate scheduler state:
play/pause button, slider scrub, space bar, arrow keys, speed slider,
and the firing of the scheduled timeout. -/
inductive Event where
  | playPause : Event
  | sliderChange : Nat → Event
  | keySpace : Event
  | keyRight : Event
  | keyLeft : Event
  | speedChange : ℚ → Event
  | timerFire : Event
  deriving DecidableEq, Repr

/-- One event step: the event handler runs, then the playback effect
re-runs when its dependencies changed.
* `playPause`: `handlePlayPause`.
* `sliderChange i`: `handleSliderChange` (lines 246-249) sets
  `currentIndex := i` and `isPlaying := false`.
* `keySpace`: toggles `isPlaying` (handleKeyPress, line 232).
* `keyRight` / `keyLeft`: clamp the index with `Math.min` / `Math.max`
  (handleKeyPress, lines 235 and 238); `isPlaying` is not touched, so
  the playback effect does not re-run and the pending timeout survives.
* `speedChange v`: `setPlaybackSpeed v` (line 294).
* `timerFire`: the timeout callback (lines 203-207) sets
  `currentIndex` to the captured `nextIndex` and calls `advanceFrame`
  again; with no pending timeout nothing fires. -/
def step (data : List Sample) (s : SchedState) : Event → SchedState
  | Event.playPause => reRunEffect data s (handlePlayPause data.length s)
  | Event.sliderChange i =>
      reRunEffect data s { s with currentIndex := i, isPlaying := false }
  | Event.keySpace => reRunEffect data s { s with isPlaying := !s.isPlaying }
  | Event.keyRight =>
      { s with currentIndex := min (s.currentIndex + 1) (data.length - 1) }
  | Event.keyLeft => { s with currentIndex := s.currentIndex - 1 }
  | Event.speedChange v => reRunEffect data s { s with playbackSpeed := v }
  | Event.timerFire =>
      match s.timer with
      | none => s
      | some t =>
          advanceFrame data { s with currentIndex := t.nextIndex, timer := none }

/-- Run a finite sequence of events from a state. -/
def run (data : List Sample) (s : SchedState) (ops : List Event) : SchedState :=
  ops.foldl (step data) s

/-- Events as the UI can actually deliver them: the timeline slider
has `min=0`, `max=totalFrames-1`, `step=1`, so a scrub always carries
an in-range index; the speed slider ranges over 0.1x-3x. -/
def validEvent (len : Nat) : Event → Prop
  | Event.sliderChange i => i < len
  | Event.speedChange v => 0 < v
  | _ => True

/-! ### Frame-seek synchronizer and overlay projector
(ScreenshotDisplayVideo.jsx).  The media element is external: the
synchronizer only reads its reported `currentTime`, natural and
displayed dimensions and ready state, and receives its seeking/seeked
callbacks, so those observations are explicit inputs of each
operation. -/

/-- The capture frame rate constant `videoFPS` (line 80). -/
def videoFPS : ℚ := 10

/-- The seek tolerance of 0.05 seconds (line 85). -/
def seekTolerance : ℚ := 1 / 20

/-- The synchronizer state: the `isSeeking` / `pendingData` React
state of ScreenshotDisplayVideo. -/
structure SyncState where
  isSeeking : Bool
  pendingData : Option Sample
  deriving DecidableEq, Repr

/-- Commands the synchronizer issues: a seek of the media element to
an absolute time, or a geometry recomputation (`updateDisplay`) from a
given sample. -/
inductive SyncAction where
  | seekTo : ℚ → SyncAction
  | recompute : Sample → SyncAction
  deriving DecidableEq, Repr

/-- The seek effect (ScreenshotDisplayVideo.jsx lines 73-94), run
whenever the `data` prop changes: it computes
`targetTime = frame_number / videoFPS`; if the observed media time is
more than the tolerance away it marks the state as seeking, remembers
the sample as pending and seeks the media, otherwise it calls
`updateDisplay` immediately with the current sample. -/
def seekEffect (d : Sample) (currentTime : ℚ) (st : SyncState) :
    SyncState × List SyncAction :=
  let targetTime := (d.frame_number : ℚ) / videoFPS
  let timeDiff := |currentTime - targetTime|
  if seekTolerance < timeDiff then
    ({ st with isSeeking := true, pendingData := some d },
      [SyncAction.seekTo targetTime])
  else
    (st, [SyncAction.recompute d])

/-- The display effect (lines 107-111): when not seeking and the media
reports `readyState >= 2`, recompute geometry from the current sample;
otherwise do nothing. -/
def displayEffect (d : Sample) (st : SyncState) (readyState : Nat) :
    List SyncAction :=
  if st.isSeeking = false ∧ 2 ≤ readyState then [SyncAction.recompute d] else []

/-- `handleSeeked` (lines 97-104): the seek-completion callback of the
media clears `isSeeking`; when a pending sample exists it is cleared
and `updateDisplay` runs.  The `updateDisplay` closure reads the
current `data` prop `d`, not the sample stored at seek-request time. -/
def handleSeeked (d : Sample) (st : SyncState) : SyncState × List SyncAction :=
  let cleared : SyncState := { st with isSeeking := false }
  match cleared.pendingData with
  | some _ => ({ cleared with pendingData := none }, [SyncAction.recompute d])
  | none => (cleared, [])

/-- `handleSeeking` (lines 125-127): the seeking callback of the media
marks the state as seeking. -/
def handleSeeking (st : SyncState) : SyncState :=
  { st with isSeeking := true }

/-- Where the cursor marker div is placed by `updateDisplay`: direct
mode writes pixel `left`/`top` offsets with no transform; POV mode
pins it at 50%/50% with a translate(-50%, -50%). -/
inductive CursorPlacement where
  | atPx : ℚ → ℚ → CursorPlacement
  | centered : CursorPlacement
  deriving DecidableEq, Repr

/-- The geometry `updateDisplay` writes: the translation applied to
the video element (none encodes the "none" transform of direct mode)
and the cursor marker placement. -/
structure DisplayResult where
  videoOffset : Option (ℚ × ℚ)
  cursor : CursorPlacement
  deriving DecidableEq, Repr

/-- `updateDisplay` (ScreenshotDisplayVideo.jsx lines 15-69), with the
DOM reads made explicit arguments (`videoWidth`/`videoHeight`,
`clientWidth`/`clientHeight`, container bounding rect).  It returns
`none` exactly when it bails out on a zero natural dimension, before
any scale factor is computed; the guard on unmounted refs is not
modelled (the component is rendered whenever a sample exists).
Direct mode places the marker top-left at the scaled cursor point
minus 10px on each axis (the marker is 20px, so its center sits on
the cursor point); POV mode translates the video by
center - cursor and centers the marker. -/
def updateDisplay (d : Sample)
    (naturalWidth naturalHeight displayedWidth displayedHeight : ℚ)
    (isFpsMode : Bool) (containerWidth containerHeight : ℚ) :
    Option DisplayResult :=
  if naturalWidth = 0 ∨ naturalHeight = 0 then none
  else
    let scaleX := displayedWidth / naturalWidth
    let scaleY := displayedHeight / naturalHeight
    let cursorX := (d.x / 2) * scaleX
    let cursorY := (d.y / 2) * scaleY
    if isFpsMode then
      let centerX := containerWidth / 2
      let centerY := containerHeight / 2
      some { videoOffset := some (centerX - cursorX, centerY - cursorY),
             cursor := CursorPlacement.centered }
    else
      some { videoOffset := none,
             cursor := CursorPlacement.atPx (cursorX - 10) (cursorY - 10) }

/-- `handleVideoLoad` (lines 119-122), run on the loadedMetadata
signal of the media: it recomputes geometry via `updateDisplay` and
notifies the parent (the Bool records that `onVideoLoad` was called). -/
def handleVideoLoad (d : Sample)
    (naturalWidth naturalHeight displayedWidth displayedHeight : ℚ)
    (isFpsMode : Bool) (containerWidth containerHeight : ℚ) :
    Option DisplayResult × Bool :=
  (updateDisplay d naturalWidth naturalHeight displayedWidth displayedHeight
    isFpsMode containerWidth containerHeight, true)

/-! ### Concrete fixtures for witnesses and counterexamples. -/

/-- A minimal sample with a given frame number and timestamp. -/
def mkSample (fn : Nat) (ts : ℚ) : Sample :=
  { frame_number := fn, timestamp := ts, datetime := "", video_timestamp := ts,
    x := 0, y := 0 }

/-- Two samples one second apart. -/
def dataTwo : List Sample := [mkSample 0 0, mkSample 1 1]

/-- Two samples ten seconds apart (a long pending wait). -/
def dataSlow : List Sample := [mkSample 0 0, mkSample 1 10]

/-- Sample at frame 0 (media target time 0.0s). -/
def sampleA : Sample := mkSample 0 0

/-- A later sample at frame 10 (media target time 1.0s). -/
def sampleB : Sample := mkSample 10 1

/-- The sample of the projection example in the spec: cursor recorded
at pixel (800, 600). -/
def sampleProj : Sample :=
  { frame_number := 0, timestamp := 0, datetime := "", video_timestamp := 0,
    x := 800, y := 600 }

/-- The range invariant of the scheduler state: the current index is
in range and any pending timeout advances to an in-range index. -/
def IndexInv (len : Nat) (s : SchedState) : Prop :=
  s.currentIndex < len ∧ ∀ t : Timer, s.timer = some t → t.nextIndex < len

/-! ### Helper lemmas. -/

theorem advanceFrame_indexInv (data : List Sample) (s : SchedState)
    (h : IndexInv data.length s) : IndexInv data.length (advanceFrame data s) := by
  obtain ⟨h1, h2⟩ := h
  unfold advanceFrame
  by_cases hc : data.length - 1 ≤ s.currentIndex
  · simp only [if_pos hc]
    exact ⟨h1, h2⟩
  · simp only [if_neg hc]
    refine ⟨h1, ?_⟩
    intro t ht
    simp only [Option.some.injEq] at ht
    subst ht
    show s.currentIndex + 1 < data.length
    omega

theorem runPlaybackEffect_indexInv (data : List Sample) (s : SchedState)
    (h : IndexInv data.length s) :
    IndexInv data.length (runPlaybackEffect data s) := by
  obtain ⟨h1, h2⟩ := h
  have hnone : IndexInv data.length ({ s with timer := none } : SchedState) :=
    ⟨h1, fun t ht => Option.noConfusion ht⟩
  unfold runPlaybackEffect
  cases hb : s.isPlaying with
  | false => simpa [hb] using hnone
  | true => simpa [hb] using advanceFrame_indexInv data _ hnone

theorem reRunEffect_indexInv (data : List Sample) (old new : SchedState)
    (h : IndexInv data.length new) :
    IndexInv data.length (reRunEffect data old new) := by
  unfold reRunEffect
  by_cases hc : old.isPlaying = new.isPlaying ∧ old.playbackSpeed = new.playbackSpeed
  · simp only [if_pos hc]; exact h
  · simp only [if_neg hc]; exact runPlaybackEffect_indexInv data new h

theorem step_indexInv (data : List Sample) (hN : 1 ≤ data.length)
    (s : SchedState) (e : Event) (he : validEvent data.length e)
    (h : IndexInv data.length s) : IndexInv data.length (step data s e) := by
  obtain ⟨h1, h2⟩ := h
  cases e with
  | playPause =>
      refine reRunEffect_indexInv data s _ ?_
      unfold handlePlayPause
      by_cases hc : data.length - 1 ≤ s.currentIndex
      · simp only [if_pos hc]
        exact ⟨by show 0 < data.length; omega, h2⟩
      · simp only [if_neg hc]
        exact ⟨h1, h2⟩
  | sliderChange i =>
      exact reRunEffect_indexInv data s _ ⟨he, h2⟩
  | keySpace =>
      exact reRunEffect_indexInv data s _ ⟨h1, h2⟩
  | keyRight =>
      refine ⟨?_, h2⟩
      simp only [step]
      omega
  | keyLeft =>
      refine ⟨?_, h2⟩
      simp only [step]
      omega
  | speedChange v =>
      exact reRunEffect_indexInv data s _ ⟨h1, h2⟩
  | timerFire =>
      simp only [step]
      cases ht : s.timer with
      | none => exact ⟨h1, h2⟩
      | some t =>
          refine advanceFrame_indexInv data _ ?_
          exact ⟨h2 t ht, by intro u hu; exact Option.noConfusion hu⟩

theorem run_indexInv (data : List Sample) (hN : 1 ≤ data.length)
    (ops : List Event) (s : SchedState)
    (hvalid : ∀ e ∈ ops, validEvent data.length e)
    (h : IndexInv data.length s) : IndexInv data.length (run data s ops) := by
  induction ops generalizing s with
  | nil => exact h
  | cons e rest ih =>
      refine ih (step data s e) ?_ ?_
      · intro x hx; exact hvalid x (List.mem_cons_of_mem e hx)
      · exact step_indexInv data hN s e (hvalid e (List.mem_cons_self e rest)) h

/-! ### Claim theorems. -/

/-- C1: while Playing, with the cursor at index i and i+1 a valid
index, the scheduler schedules the advancement to index i+1 with a
timeout whose delay in milliseconds is
(samples[i+1].timestamp - samples[i].timestamp) * 1000 / speed, that
is, exactly (samples[i+1].timestamp - samples[i].timestamp) / speed
seconds of wall-clock delay; doubling the speed halves that delay. -/
theorem advanceFrame_schedules_exact_delay (data : List Sample) (s : SchedState)
    (sp : ℚ) (hplay : s.isPlaying = true) (hlt : s.currentIndex + 1 < data.length)
    (hsp : s.playbackSpeed = sp) (hpos : 0 < sp) :
    (advanceFrame data s).timer =
      some { nextIndex := s.currentIndex + 1,
             delayMs := (tsAt data (s.currentIndex + 1) - tsAt data s.currentIndex)
               * 1000 / sp }
    ∧ ((tsAt data (s.currentIndex + 1) - tsAt data s.currentIndex) * 1000 / sp) / 1000
        = (tsAt data (s.currentIndex + 1) - tsAt data s.currentIndex) / sp
    ∧ (advanceFrame data { s with playbackSpeed := 2 * sp }).timer =
      some { nextIndex := s.currentIndex + 1,
             delayMs := ((tsAt data (s.currentIndex + 1) - tsAt data s.currentIndex)
               * 1000 / sp) / 2 } := by
  have hcond : ¬ (data.length - 1 ≤ s.currentIndex) := by omega
  refine ⟨?_, ?_, ?_⟩
  · simp only [advanceFrame, if_neg hcond, hsp]
  · rw [div_div, mul_comm sp 1000, ← div_div, mul_div_assoc]
    norm_num
  · simp only [advanceFrame]
    rw [if_neg (by exact hcond)]
    simp only [Option.some.injEq, Timer.mk.injEq, true_and]
    rw [div_div, mul_comm sp 2]

/-- Witness for C1 at the two-sample sequence with timestamps 0 and 1
and speed 1: the scheduled delay is 1000 ms, i.e. 1 second. -/
theorem advanceFrame_schedules_exact_delay_witness :
    (advanceFrame dataTwo
        { currentIndex := 0, isPlaying := true, playbackSpeed := 1, timer := none }).timer
      = some { nextIndex := 1, delayMs := 1000 } := by
  have h := advanceFrame_schedules_exact_delay dataTwo
    { currentIndex := 0, isPlaying := true, playbackSpeed := 1, timer := none }
    1 rfl (by norm_num [dataTwo]) rfl (by norm_num)
  rw [h.1]
  norm_num [tsAt, dataTwo, mkSample]

/-- C4: when the scheduler loop runs while the cursor is at the last
index, it stops playback (isPlaying becomes false) and leaves every
other field, in particular currentIndex, unchanged; a play command
issued in the Stopped state at the terminal index resets the cursor
to index 0 and transitions to Playing. -/
theorem terminal_stop_and_replay (data : List Sample) (s : SchedState) :
    (s.isPlaying = true → s.currentIndex = data.length - 1 →
      advanceFrame data s = { s with isPlaying := false })
    ∧ (s.isPlaying = false → s.currentIndex = data.length - 1 → 2 ≤ data.length →
      (step data s Event.playPause).currentIndex = 0
      ∧ (step data s Event.playPause).isPlaying = true) := by
  constructor
  · intro hplay hterm
    unfold advanceFrame
    rw [if_pos (by omega)]
  · intro hstop hterm hN
    obtain ⟨i, p, sp, t⟩ := s
    simp only at hstop hterm
    subst hstop
    have hc1 : data.length - 1 ≤ i := by omega
    have hc2 : ¬ (data.length - 1 ≤ 0) := by omega
    have hpp : handlePlayPause data.length ⟨i, false, sp, t⟩ = ⟨0, true, sp, t⟩ := by
      simp only [handlePlayPause]
      rw [if_pos hc1]
    have hstep : step data ⟨i, false, sp, t⟩ Event.playPause =
        advanceFrame data ⟨0, true, sp, none⟩ := by
      simp only [step]
      rw [hpp]
      rfl
    rw [hstep]
    simp only [advanceFrame]
    rw [if_neg hc2]
    exact ⟨rfl, rfl⟩

/-- Witness for C4: with two samples, auto-stop at index 1 and a
replay command from the resulting Stopped state. -/
theorem terminal_stop_and_replay_witness :
    advanceFrame dataTwo
        { currentIndex := 1, isPlaying := true, playbackSpeed := 1, timer := none }
      = { currentIndex := 1, isPlaying := false, playbackSpeed := 1, timer := none }
    ∧ (step dataTwo
        { currentIndex := 1, isPlaying := false, playbackSpeed := 1, timer := none }
        Event.playPause).currentIndex = 0
    ∧ (step dataTwo
        { currentIndex := 1, isPlaying := false, playbackSpeed := 1, timer := none }
        Event.playPause).isPlaying = true := by
  have h := terminal_stop_and_replay dataTwo
    { currentIndex := 1, isPlaying := false, playbackSpeed := 1, timer := none }
  have h2 := (terminal_stop_and_replay dataTwo
    { currentIndex := 1, isPlaying := true, playbackSpeed := 1, timer := none }).1
    rfl (by norm_num [dataTwo])
  refine ⟨h2, ?_, ?_⟩
  · exact (h.2 rfl (by norm_num [dataTwo]) (by norm_num [dataTwo])).1
  · exact (h.2 rfl (by norm_num [dataTwo]) (by norm_num [dataTwo])).2

/-- C5: starting from the initial state, after any prefix of a finite
sequence of UI events (play/pause, in-range slider scrubs, keyboard
steps, speed changes, timer firings) the current index stays in
[0, N-1]; a keyboard step forward at the last index or backward at
index 0 leaves the whole state unchanged (clamping, no wrap). -/
theorem currentIndex_always_in_range (data : List Sample) (hN : 1 ≤ data.length)
    (ops pre suf : List Event) (hvalid : ∀ e ∈ ops, validEvent data.length e)
    (hsplit : ops = pre ++ suf) :
    (run data initState pre).currentIndex < data.length
    ∧ (∀ s : SchedState, s.currentIndex = data.length - 1 →
        step data s Event.keyRight = s)
    ∧ (∀ s : SchedState, s.currentIndex = 0 → step data s Event.keyLeft = s) := by
  refine ⟨?_, ?_, ?_⟩
  · have hpre : ∀ e ∈ pre, validEvent data.length e := by
      intro e he
      exact hvalid e (hsplit ▸ List.mem_append_left suf he)
    have hinit : IndexInv data.length initState := by
      refine ⟨by show 0 < data.length; omega, ?_⟩
      intro t ht
      exact Option.noConfusion ht
    exact (run_indexInv data hN pre initState hpre hinit).1
  · intro s hterm
    obtain ⟨i, p, sp, t⟩ := s
    simp only [step, SchedState.mk.injEq, and_true, true_and]
    simp only at hterm
    omega
  · intro s hzero
    obtain ⟨i, p, sp, t⟩ := s
    simp only [step, SchedState.mk.injEq, and_true, true_and]
    simp only at hzero
    omega

/-- Witness for C5: a concrete run on the two-sample sequence, plus
both boundary clamps at concrete states. -/
theorem currentIndex_always_in_range_witness :
    (run dataTwo initState [Event.playPause, Event.keyRight, Event.keyRight]).currentIndex
        < dataTwo.length
    ∧ step dataTwo
        { currentIndex := 1, isPlaying := false, playbackSpeed := 1, timer := none }
        Event.keyRight
      = { currentIndex := 1, isPlaying := false, playbackSpeed := 1, timer := none }
    ∧ step dataTwo
        { currentIndex := 0, isPlaying := false, playbackSpeed := 1, timer := none }
        Event.keyLeft
      = { currentIndex := 0, isPlaying := false, playbackSpeed := 1, timer := none } := by
  have h := currentIndex_always_in_range dataTwo (by norm_num [dataTwo])
    [Event.playPause, Event.keyRight, Event.keyRight]
    [Event.playPause, Event.keyRight, Event.keyRight] []
    (by simp [validEvent]) (by simp)
  exact ⟨h.1, h.2.1 _ (by norm_num [dataTwo]), h.2.2 _ rfl⟩

/-- C3 counterexample: on the two-sample sequence with timestamps 0
and 10, after a play command the scheduler is Playing with a pending
advancement; a keyboard step forward mutates currentIndex but leaves
isPlaying true and the pending scheduled advancement in place, so the
claim that any external currentIndex mutation (including keyboard
steps) forces isPlaying = false and cancels the timer is false. -/
theorem keyboard_step_keeps_playing_counterexample :
    (run dataSlow initState [Event.playPause, Event.keyRight]).currentIndex = 1
    ∧ (run dataSlow initState [Event.playPause, Event.keyRight]).isPlaying = true
    ∧ (run dataSlow initState [Event.playPause, Event.keyRight]).timer =
        some { nextIndex := 1, delayMs := 10000 } := by
  norm_num [run, step, reRunEffect, runPlaybackEffect, advanceFrame, handlePlayPause,
    tsAt, dataSlow, mkSample, initState]

/-- C3 amended: while Playing, a slider scrub forces isPlaying = false
and cancels the pending scheduled advancement, but a keyboard step
(either direction) leaves isPlaying and the pending advancement
unchanged: only the slider path pauses playback. -/
theorem external_index_mutation_amended (data : List Sample) (s : SchedState)
    (hplay : s.isPlaying = true) :
    (∀ i : Nat, (step data s (Event.sliderChange i)).isPlaying = false
        ∧ (step data s (Event.sliderChange i)).timer = none)
    ∧ (step data s Event.keyRight).isPlaying = true
    ∧ (step data s Event.keyRight).timer = s.timer
    ∧ (step data s Event.keyLeft).isPlaying = true
    ∧ (step data s Event.keyLeft).timer = s.timer := by
  obtain ⟨i0, p, sp, t⟩ := s
  simp only at hplay
  subst hplay
  exact ⟨fun i => ⟨rfl, rfl⟩, rfl, rfl, rfl, rfl⟩

/-- Witness for the amended C3 at a concrete Playing state. -/
theorem external_index_mutation_amended_witness :
    (step dataSlow
        { currentIndex := 0, isPlaying := true, playbackSpeed := 1,
          timer := some { nextIndex := 1, delayMs := 10000 } }
        (Event.sliderChange 1)).isPlaying = false
    ∧ (step dataSlow
        { currentIndex := 0, isPlaying := true, playbackSpeed := 1,
          timer := some { nextIndex := 1, delayMs := 10000 } }
        Event.keyRight).isPlaying = true := by
  have h := external_index_mutation_amended dataSlow
    { currentIndex := 0, isPlaying := true, playbackSpeed := 1,
      timer := some { nextIndex := 1, delayMs := 10000 } } rfl
  exact ⟨(h.1 1).1, h.2.1⟩

/-- C7 counterexample: with samples one second apart at speed 1, the
play command schedules an advancement with a 1000 ms delay; a speed
change to 2 while that wait is in flight does not let it complete with
its original delay: the playback effect re-runs, cancels it, and
reschedules the same advancement with a fresh 500 ms delay computed
from the new speed. -/
theorem speed_change_rescales_wait_counterexample :
    (run dataTwo initState [Event.playPause]).timer =
        some { nextIndex := 1, delayMs := 1000 }
    ∧ (run dataTwo initState [Event.playPause, Event.speedChange 2]).timer =
        some { nextIndex := 1, delayMs := 500 }
    ∧ (500 : ℚ) ≠ 1000 := by
  norm_num [run, step, reRunEffect, runPlaybackEffect, advanceFrame, handlePlayPause,
    tsAt, dataTwo, mkSample, initState]

/-- C7 amended: a speed change to a different value while Playing (at
a non-terminal index) cancels the in-flight wait and immediately
reschedules the advancement to the same next index with the full
inter-sample delay divided by the new speed; the new speed therefore
takes effect immediately on the restarted wait, not on the next
interval. -/
theorem speed_change_reschedules_full_delay (data : List Sample) (s : SchedState)
    (v : ℚ) (hplay : s.isPlaying = true) (hlt : s.currentIndex + 1 < data.length)
    (hne : v ≠ s.playbackSpeed) :
    (step data s (Event.speedChange v)).timer =
      some { nextIndex := s.currentIndex + 1,
             delayMs := (tsAt data (s.currentIndex + 1) - tsAt data s.currentIndex)
               * 1000 / v }
    ∧ (step data s (Event.speedChange v)).currentIndex = s.currentIndex
    ∧ (step data s (Event.speedChange v)).isPlaying = true := by
  obtain ⟨i, p, sp, t⟩ := s
  simp only at hplay hlt hne
  subst hplay
  have hcond : ¬ ((true : Bool) = true ∧ sp = v) := fun h => hne h.2.symm
  have hc2 : ¬ (data.length - 1 ≤ i) := by omega
  have hre : reRunEffect data ⟨i, true, sp, t⟩ ⟨i, true, v, t⟩ =
      runPlaybackEffect data ⟨i, true, v, t⟩ := by
    unfold reRunEffect
    rw [if_neg hcond]
  have hrpe : runPlaybackEffect data ⟨i, true, v, t⟩ =
      advanceFrame data ⟨i, true, v, none⟩ := rfl
  simp only [step]
  rw [hre, hrpe]
  simp only [advanceFrame]
  rw [if_neg hc2]
  exact ⟨rfl, rfl, rfl⟩

/-- Witness for the amended C7: speed 1 to 2 with a 1-second gap gives
a fresh 500 ms wait. -/
theorem speed_change_reschedules_full_delay_witness :
    (step dataTwo
        { currentIndex := 0, isPlaying := true, playbackSpeed := 1,
          timer := some { nextIndex := 1, delayMs := 1000 } }
        (Event.speedChange 2)).timer = some { nextIndex := 1, delayMs := 500 } := by
  have h := speed_change_reschedules_full_delay dataTwo
    { currentIndex := 0, isPlaying := true, playbackSpeed := 1,
      timer := some { nextIndex := 1, delayMs := 1000 } }
    2 rfl (by norm_num [dataTwo]) (by norm_num)
  rw [h.1]
  norm_num [tsAt, dataTwo, mkSample]

/-- C10 counterexample: the state Playing-at-terminal-index is
reachable (play, then keyboard step forward); from it, a speed change
event re-runs the playback effect, whose end-of-sequence check sets
isPlaying to false, so a speed change does not always leave isPlaying
unchanged. -/
theorem speed_change_stops_at_terminal_counterexample :
    (run dataSlow initState [Event.playPause, Event.keyRight]).isPlaying = true
    ∧ (run dataSlow initState
        [Event.playPause, Event.keyRight, Event.speedChange 2]).isPlaying = false := by
  norm_num [run, step, reRunEffect, runPlaybackEffect, advanceFrame, handlePlayPause,
    tsAt, dataSlow, mkSample, initState]

/-- C10 amended: a speed change event always leaves currentIndex
unchanged and sets the speed field to the new value; it also leaves
isPlaying unchanged whenever the scheduler is not Playing or the
cursor is at a non-terminal index — the only exception is the
Playing-at-terminal-index state, where the effect re-run performs the
end-of-sequence check and stops playback. -/
theorem speed_change_only_updates_speed (data : List Sample) (s : SchedState) (v : ℚ) :
    (step data s (Event.speedChange v)).currentIndex = s.currentIndex
    ∧ (step data s (Event.speedChange v)).playbackSpeed = v
    ∧ (s.isPlaying = false ∨ s.currentIndex + 1 < data.length →
        (step data s (Event.speedChange v)).isPlaying = s.isPlaying) := by
  obtain ⟨i, p, sp, t⟩ := s
  simp only [step]
  unfold reRunEffect
  by_cases hc : sp = v
  · subst hc
    rw [if_pos ⟨rfl, rfl⟩]
    exact ⟨rfl, rfl, fun _ => rfl⟩
  · rw [if_neg (fun h => hc h.2)]
    cases p with
    | false => exact ⟨rfl, rfl, fun _ => rfl⟩
    | true =>
        have hrpe : runPlaybackEffect data ⟨i, true, v, t⟩ =
            advanceFrame data ⟨i, true, v, none⟩ := rfl
        rw [hrpe]
        simp only [advanceFrame]
        by_cases hterm : data.length - 1 ≤ i
        · rw [if_pos hterm]
          refine ⟨rfl, rfl, fun h => ?_⟩
          rcases h with h | h
          · exact Bool.noConfusion h
          · exact absurd hterm (by omega)
        · rw [if_neg hterm]
          exact ⟨rfl, rfl, fun _ => rfl⟩

/-- Witness for the amended C10 at a Playing non-terminal state. -/
theorem speed_change_only_updates_speed_witness :
    (step dataTwo
        { currentIndex := 0, isPlaying := true, playbackSpeed := 1,
          timer := some { nextIndex := 1, delayMs := 1000 } }
        (Event.speedChange 2)).currentIndex = 0
    ∧ (step dataTwo
        { currentIndex := 0, isPlaying := true, playbackSpeed := 1,
          timer := some { nextIndex := 1, delayMs := 1000 } }
        (Event.speedChange 2)).isPlaying = true := by
  have h := speed_change_only_updates_speed dataTwo
    { currentIndex := 0, isPlaying := true, playbackSpeed := 1,
      timer := some { nextIndex := 1, delayMs := 1000 } } 2
  exact ⟨h.1, h.2.2 (Or.inr (by norm_num [dataTwo]))⟩

/-- C2: the synchronizer issues a seek (marking the state seeking,
remembering the sample as pending, and targeting frame_number/10
seconds) exactly when the observed media time differs from
frame_number/10 by more than 0.05 seconds; within the tolerance it
issues no seek and triggers geometry recomputation immediately. -/
theorem seek_iff_beyond_tolerance (d : Sample) (ct : ℚ) (st : SyncState) :
    ((seekEffect d ct st).2 = [SyncAction.seekTo ((d.frame_number : ℚ) / 10)]
        ↔ 1 / 20 < |ct - (d.frame_number : ℚ) / 10|)
    ∧ (1 / 20 < |ct - (d.frame_number : ℚ) / 10| →
        (seekEffect d ct st).1 = { isSeeking := true, pendingData := some d })
    ∧ (|ct - (d.frame_number : ℚ) / 10| ≤ 1 / 20 →
        seekEffect d ct st = (st, [SyncAction.recompute d])) := by
  simp only [seekEffect, videoFPS, seekTolerance]
  by_cases h : (1 : ℚ) / 20 < |ct - (d.frame_number : ℚ) / 10|
  · rw [if_pos h]
    exact ⟨⟨fun _ => h, fun _ => rfl⟩, fun _ => rfl,
      fun hc => absurd h (not_lt.mpr hc)⟩
  · rw [if_neg h]
    exact ⟨⟨fun heq => absurd heq (by simp), fun hh => absurd hh h⟩,
      fun hh => absurd hh h, fun _ => rfl⟩

/-- Witness for C2: frame 10 (target 1.0s) with the media observed at
2.0s is out of tolerance and triggers a seek. -/
theorem seek_iff_beyond_tolerance_witness :
    (seekEffect sampleB 2 { isSeeking := false, pendingData := none }).1
      = { isSeeking := true, pendingData := some sampleB } := by
  have h := seek_iff_beyond_tolerance sampleB 2
    { isSeeking := false, pendingData := none }
  exact h.2.1 (by norm_num [sampleB, mkSample, abs_one])

/-- C6 counterexample: with a seek in flight toward the frame-0 sample
(seeking true, pending sampleA), the arrival of the newer frame-10
sample while the media reports time 1.0 (within tolerance of the new
target) makes the seek effect recompute geometry from the newer sample
immediately, while seeking is still true — the projector does not
always wait for seek completion. -/
theorem recompute_during_seek_counterexample :
    (seekEffect sampleA 1 { isSeeking := false, pendingData := none }).1
      = { isSeeking := true, pendingData := some sampleA }
    ∧ (seekEffect sampleB 1 { isSeeking := true, pendingData := some sampleA }).2
      = [SyncAction.recompute sampleB]
    ∧ (seekEffect sampleB 1
        { isSeeking := true, pendingData := some sampleA }).1.isSeeking = true
    ∧ sampleA.frame_number < sampleB.frame_number := by
  norm_num [seekEffect, videoFPS, seekTolerance, sampleA, sampleB, mkSample,
    abs_one, abs_zero]

/-- C6 amended: while seeking is true the not-seeking display effect
performs no geometry recomputation; on seek completion the handler
clears seeking and, exactly when a pending sample exists, clears it
and recomputes geometry from the current (latest) cursor sample.
However, the seek-alignment effect run by a newer sample while a seek
is in flight recomputes from that newer sample immediately whenever
the observed media time is within tolerance of the newer target. -/
theorem seek_suppression_amended (d : Sample) (st : SyncState) (rs : Nat) (ct : ℚ) :
    (st.isSeeking = true → displayEffect d st rs = [])
    ∧ (handleSeeked d st).1.isSeeking = false
    ∧ (st.pendingData ≠ none →
        handleSeeked d st = ({ isSeeking := false, pendingData := none },
          [SyncAction.recompute d]))
    ∧ (st.pendingData = none →
        handleSeeked d st = ({ isSeeking := false, pendingData := none }, []))
    ∧ (st.isSeeking = true → |ct - (d.frame_number : ℚ) / 10| ≤ 1 / 20 →
        (seekEffect d ct st).2 = [SyncAction.recompute d]) := by
  obtain ⟨sk, pd⟩ := st
  refine ⟨?_, ?_, ?_, ?_, ?_⟩
  · intro h
    simp only at h
    subst h
    rfl
  · cases pd <;> rfl
  · intro h
    cases pd with
    | none => exact absurd rfl h
    | some a => rfl
  · intro h
    simp only at h
    subst h
    rfl
  · intro hsk hle
    simp only [seekEffect, videoFPS, seekTolerance]
    rw [if_neg (not_lt.mpr hle)]

/-- Witness for the amended C6: seeking toward sampleA with sampleB
current, the display effect is suppressed and seek completion
recomputes from the current sample. -/
theorem seek_suppression_amended_witness :
    displayEffect sampleB { isSeeking := true, pendingData := some sampleA } 2 = []
    ∧ handleSeeked sampleB { isSeeking := true, pendingData := some sampleA }
      = ({ isSeeking := false, pendingData := none },
          [SyncAction.recompute sampleB]) := by
  have h := seek_suppression_amended sampleB
    { isSeeking := true, pendingData := some sampleA } 2 1
  exact ⟨h.1 rfl, h.2.2.1 (by simp)⟩

/-- C8: when the media reports a zero natural width or height,
geometry computation returns none before any scale factor is divided
out; the load signal handler recomputes geometry, which succeeds once
both natural dimensions are nonzero. -/
theorem zero_dimension_noop_and_retry (d : Sample) (nw nh dw dh cw ch : ℚ)
    (fps : Bool) :
    (nw = 0 ∨ nh = 0 → updateDisplay d nw nh dw dh fps cw ch = none)
    ∧ (handleVideoLoad d nw nh dw dh fps cw ch).1
        = updateDisplay d nw nh dw dh fps cw ch
    ∧ (nw ≠ 0 → nh ≠ 0 →
        ((handleVideoLoad d nw nh dw dh fps cw ch).1).isSome = true) := by
  refine ⟨fun h => ?_, rfl, fun h1 h2 => ?_⟩
  · simp only [updateDisplay, if_pos h]
  · simp only [handleVideoLoad, updateDisplay]
    rw [if_neg (by tauto)]
    cases fps <;> rfl

/-- Witness for C8: zero natural width is a no-op; with full
dimensions the load handler computes a geometry. -/
theorem zero_dimension_noop_and_retry_witness :
    updateDisplay sampleProj 0 1000 500 500 false 0 0 = none
    ∧ (handleVideoLoad sampleProj 1000 1000 500 500 false 0 0).1.isSome = true := by
  exact ⟨(zero_dimension_noop_and_retry sampleProj 0 1000 500 500 0 0 false).1
      (Or.inl rfl),
    (zero_dimension_noop_and_retry sampleProj 1000 1000 500 500 0 0 false).2.2
      (by norm_num) (by norm_num)⟩

/-- C9: in direct mode with nonzero natural dimensions, the marker
top-left is placed at ((x/2)*(dw/nw) - 10, (y/2)*(dh/nh) - 10) with no
video transform, so the marker center (10px further on each axis) sits
exactly at the halved-and-scaled cursor point. -/
theorem direct_mode_projection (d : Sample) (nw nh dw dh cw ch : ℚ)
    (hnw : nw ≠ 0) (hnh : nh ≠ 0) :
    updateDisplay d nw nh dw dh false cw ch
      = some { videoOffset := none,
               cursor := CursorPlacement.atPx ((d.x / 2) * (dw / nw) - 10)
                 ((d.y / 2) * (dh / nh) - 10) }
    ∧ ((d.x / 2) * (dw / nw) - 10) + 10 = (d.x / 2) * (dw / nw)
    ∧ ((d.y / 2) * (dh / nh) - 10) + 10 = (d.y / 2) * (dh / nh) := by
  refine ⟨?_, by ring, by ring⟩
  simp only [updateDisplay]
  rw [if_neg (by tauto)]
  rfl

/-- Witness for C9, the example of the spec: natural 1000x1000 shown
at 500x500 with the cursor sample at (800, 600) puts the marker
top-left at (190, 140), hence its center at (200, 150). -/
theorem direct_mode_projection_witness :
    updateDisplay sampleProj 1000 1000 500 500 false 0 0
      = some { videoOffset := none, cursor := CursorPlacement.atPx 190 140 }
    ∧ (190 : ℚ) + 10 = 200 ∧ (140 : ℚ) + 10 = 150 := by
  have h := direct_mode_projection sampleProj 1000 1000 500 500 0 0
    (by norm_num) (by norm_num)
  refine ⟨?_, by norm_num, by norm_num⟩
  rw [h.1]
  norm_num [sampleProj]

end DayOfCursor
